import Mathlib

/-!
Verification of the Cedar-path authorization flow of the
`openfga/openfga-cedar-comparison` repository.

The development shallowly embeds, from the repository sources:

* the relational schema and fixture data of `cedar/schema.sql` (structure `DB`,
  `fixtureDB`);
* the multi-CTE SQL projection executed by `queryEntityData` in `cedar/main.go`
  (`sqlRows`), and the row-scanning loop that folds the rows into the
  `EntityData` aggregate (`scanStep`, `foldRows`, `queryEntityData`);
* the entity construction performed by `checkAuthorization` in `cedar/main.go`
  (`userAttrsFn`, `docAttrsFn`, `folderAttrsFn`, `storeFn`) — the Cedar
  `RecordMap`/`EntityMap` values are modelled extensionally as lookup
  functions, which is exactly the read interface the evaluator uses;
* the Cedar policy file `policies.cedar` as printed in the repository
  documentation (the variant with `has`-guards, matching the advertised
  behaviour of the repository on fixtures such as `doc4`, which has no parent
  folder), as a small expression language (`CExpr`) with a Cedar-style
  evaluator (`eval`) in which reading an absent attribute is an evaluation
  error and `&&` short-circuits;
* the single `ViewDocument` request and the decision/diagnostic handling of
  `checkAuthorization` and `main` (`checkAuthorization`, `cedarCheck`,
  `mainOutput`).

Machine integers play no role (all identifiers are strings), and the Go code
is single-threaded straight-line code, so every definition is a total
computable function.
-/

namespace CedarCmp

/-! ## Cedar values and expressions

`CVal` covers exactly the value shapes the program constructs: booleans,
strings, entity references, and sets of entity references (the `editors` /
`viewers` sets built in `checkAuthorization` contain only entity UIDs).
-/

inductive CVal where
  | vb : Bool → CVal
  | vs : String → CVal
  | ve : String → String → CVal
  | vset : List (String × String) → CVal
deriving DecidableEq, Repr

/-- Cedar policy-condition expressions, restricted to the constructs appearing
in `policies.cedar`: `principal`, `resource`, `has`, attribute access, `&&`,
`==`, and `in`. -/
inductive CExpr where
  | principal : CExpr
  | resource : CExpr
  | hasAttr : CExpr → String → CExpr
  | getAttr : CExpr → String → CExpr
  | andE : CExpr → CExpr → CExpr
  | eqE : CExpr → CExpr → CExpr
  | inE : CExpr → CExpr → CExpr
deriving DecidableEq, Repr

/-- An entity store: entity UID (type, id) to attribute record, both modelled
extensionally as lookup functions (the program only ever reads the maps it
builds). -/
abbrev EStore := String × String → Option (String → Option CVal)

/-- Cedar-style evaluation of a policy condition.  Reading an attribute that
is absent (or an entity that is absent from the store, for `getAttr`) is an
evaluation error; `e has a` on an entity absent from the store is `false`
(Cedar treats unknown entities as having no attributes); `&&` short-circuits,
so a failed `has`-guard protects the attribute access after it. -/
def eval (st : EStore) (pr res : String × String) : CExpr → Except String CVal
  | .principal => .ok (.ve pr.1 pr.2)
  | .resource => .ok (.ve res.1 res.2)
  | .hasAttr e a =>
    match eval st pr res e with
    | .ok (.ve t i) =>
      match st (t, i) with
      | some attrs => .ok (.vb (attrs a).isSome)
      | none => .ok (.vb false)
    | .ok _ => .error "has: not an entity"
    | .error m => .error m
  | .getAttr e a =>
    match eval st pr res e with
    | .ok (.ve t i) =>
      match st (t, i) with
      | some attrs =>
        match attrs a with
        | some v => .ok v
        | none => .error "attribute not found"
      | none => .error "entity not found"
    | .ok _ => .error "get: not an entity"
    | .error m => .error m
  | .andE e1 e2 =>
    match eval st pr res e1 with
    | .ok (.vb false) => .ok (.vb false)
    | .ok (.vb true) =>
      match eval st pr res e2 with
      | .ok (.vb b) => .ok (.vb b)
      | .ok _ => .error "and: not a boolean"
      | .error m => .error m
    | .ok _ => .error "and: not a boolean"
    | .error m => .error m
  | .eqE e1 e2 =>
    match eval st pr res e1 with
    | .ok v1 =>
      match eval st pr res e2 with
      | .ok v2 => .ok (.vb (decide (v1 = v2)))
      | .error m => .error m
    | .error m => .error m
  | .inE e1 e2 =>
    match eval st pr res e1 with
    | .ok (.ve t i) =>
      match eval st pr res e2 with
      | .ok (.vset l) => .ok (.vb (decide ((t, i) ∈ l)))
      | .ok (.ve t2 i2) => .ok (.vb (decide ((t, i) = (t2, i2))))
      | .ok _ => .error "in: invalid right operand"
      | .error m => .error m
    | .ok _ => .error "in: left operand not an entity"
    | .error m => .error m

/-- A permit policy: the action UIDs of its scope and its `when` condition. -/
structure Policy where
  actions : List String
  cond : CExpr
deriving DecidableEq, Repr

/-! ## The policy set (`policies.cedar`)

Transcribed policy by policy, in file order, from the policy file printed in
the repository documentation (the `has`-guarded variant). -/

def userT : String := "DocumentManagement::User"
def orgT : String := "DocumentManagement::Organization"
def folderT : String := "DocumentManagement::Folder"
def docT : String := "DocumentManagement::Document"

/-- Organization member can view organization documents. -/
def pOrgViewDocument : Policy :=
  { actions := ["ViewDocument"],
    cond := .andE (.andE (.hasAttr .principal "organization")
                         (.hasAttr .resource "organization"))
                  (.eqE (.getAttr .principal "organization")
                        (.getAttr .resource "organization")) }

/-- Organization member can view organization folders. -/
def pOrgViewFolder : Policy :=
  { actions := ["ViewFolder"],
    cond := .andE (.andE (.hasAttr .principal "organization")
                         (.hasAttr .resource "organization"))
                  (.eqE (.getAttr .principal "organization")
                        (.getAttr .resource "organization")) }

/-- Document owner can perform all actions on their documents. -/
def pDocOwner : Policy :=
  { actions := ["ViewDocument", "EditDocument", "DeleteDocument", "ShareDocument"],
    cond := .andE (.hasAttr .resource "owner")
                  (.eqE .principal (.getAttr .resource "owner")) }

/-- Document editor can edit and share documents they edit. -/
def pDocEditor : Policy :=
  { actions := ["EditDocument", "ShareDocument"],
    cond := .andE (.hasAttr .resource "editors")
                  (.inE .principal (.getAttr .resource "editors")) }

/-- Document viewer can view documents. -/
def pDocViewer : Policy :=
  { actions := ["ViewDocument"],
    cond := .andE (.hasAttr .resource "viewers")
                  (.inE .principal (.getAttr .resource "viewers")) }

/-- Folder owner can perform all actions on their folders. -/
def pFolderOwner : Policy :=
  { actions := ["ViewFolder", "EditFolder", "DeleteFolder", "ShareFolder"],
    cond := .andE (.hasAttr .resource "owner")
                  (.eqE .principal (.getAttr .resource "owner")) }

/-- Folder editor can view, edit, and share folders (but not delete). -/
def pFolderEditor : Policy :=
  { actions := ["ViewFolder", "EditFolder", "ShareFolder"],
    cond := .andE (.hasAttr .resource "editors")
                  (.inE .principal (.getAttr .resource "editors")) }

/-- Folder editor can view, edit, and share documents in their folders. -/
def pFolderEditorDocs : Policy :=
  { actions := ["ViewDocument", "EditDocument", "ShareDocument"],
    cond := .andE (.andE (.hasAttr .resource "parent_folder")
                         (.hasAttr (.getAttr .resource "parent_folder") "editors"))
                  (.inE .principal (.getAttr (.getAttr .resource "parent_folder") "editors")) }

/-- Folder owner can view, edit, and share documents in their folders. -/
def pFolderOwnerDocs : Policy :=
  { actions := ["ViewDocument", "EditDocument", "ShareDocument"],
    cond := .andE (.andE (.hasAttr .resource "parent_folder")
                         (.hasAttr (.getAttr .resource "parent_folder") "owner"))
                  (.eqE .principal (.getAttr (.getAttr .resource "parent_folder") "owner")) }

/-- Folder viewers can view folders. -/
def pFolderViewerFolders : Policy :=
  { actions := ["ViewFolder"],
    cond := .andE (.hasAttr .resource "viewers")
                  (.inE .principal (.getAttr .resource "viewers")) }

/-- Folder viewers can view documents in folders. -/
def pFolderViewerDocs : Policy :=
  { actions := ["ViewDocument"],
    cond := .andE (.andE (.hasAttr .resource "parent_folder")
                         (.hasAttr (.getAttr .resource "parent_folder") "viewers"))
                  (.inE .principal (.getAttr (.getAttr .resource "parent_folder") "viewers")) }

/-- The full policy set, in `policies.cedar` file order. -/
def policies : List Policy :=
  [pOrgViewDocument, pOrgViewFolder, pDocOwner, pDocEditor, pDocViewer,
   pFolderOwner, pFolderEditor, pFolderEditorDocs, pFolderOwnerDocs,
   pFolderViewerFolders, pFolderViewerDocs]

/-! ## The `EntityData` aggregate (`cedar/main.go`) -/

/-- `EntityData` of `cedar/main.go`: note the Go-faithful mix of empty-string
sentinels (`UserOrganization`, `DocumentOrg`: plain `string` fields filled
from `sql.NullString.String`) and genuine pointers (`*string` fields, modelled
as `Option String`).  The two Go `map[string][]string` permission maps are
modelled extensionally as functions defaulting to `[]` (a Go map read of a
missing key yields the nil slice). -/
structure EntityData where
  UserOrganization : String := ""
  DocumentID : String := ""
  DocumentOrg : String := ""
  FolderID : Option String := none
  DocumentOwner : Option String := none
  FolderOrg : Option String := none
  FolderOwner : Option String := none
  DocumentPermissions : String → List String := fun _ => []
  FolderPermissions : String → List String := fun _ => []

attribute [ext] EntityData

/-! ## Entity construction (`checkAuthorization`, lines 139–233) -/

/-- User entity attributes: `organization` is attached only when
`data.UserOrganization` is non-empty. -/
def userAttrsFn (data : EntityData) : String → Option CVal := fun a =>
  if a = "organization" then
    if data.UserOrganization = "" then none
    else some (.ve orgT data.UserOrganization)
  else none

/-- The organization entity registered alongside the user (only carries a
`name`). -/
def orgAttrsFn (data : EntityData) : String → Option CVal := fun a =>
  if a = "name" then some (.vs data.UserOrganization) else none

/-- Document entity attributes: `organization` only when non-empty, `owner`
and `parent_folder` only when the pointers are non-nil, `editors`/`viewers`
only when the corresponding grant list is non-empty. -/
def docAttrsFn (data : EntityData) : String → Option CVal := fun a =>
  if a = "name" then some (.vs data.DocumentID)
  else if a = "organization" then
    if data.DocumentOrg = "" then none else some (.ve orgT data.DocumentOrg)
  else if a = "owner" then data.DocumentOwner.map (fun o => .ve userT o)
  else if a = "parent_folder" then data.FolderID.map (fun f => .ve folderT f)
  else if a = "editors" then
    if (data.DocumentPermissions "editor").isEmpty then none
    else some (.vset ((data.DocumentPermissions "editor").map (fun e => (userT, e))))
  else if a = "viewers" then
    if (data.DocumentPermissions "viewer").isEmpty then none
    else some (.vset ((data.DocumentPermissions "viewer").map (fun v => (userT, v))))
  else none

/-- Folder entity attributes (built only when `data.FolderID` is non-nil,
with `fid` the dereferenced folder id). -/
def folderAttrsFn (data : EntityData) (fid : String) : String → Option CVal := fun a =>
  if a = "name" then some (.vs fid)
  else if a = "organization" then data.FolderOrg.map (fun o => .ve orgT o)
  else if a = "owner" then data.FolderOwner.map (fun o => .ve userT o)
  else if a = "editors" then
    if (data.FolderPermissions "editor").isEmpty then none
    else some (.vset ((data.FolderPermissions "editor").map (fun e => (userT, e))))
  else if a = "viewers" then
    if (data.FolderPermissions "viewer").isEmpty then none
    else some (.vset ((data.FolderPermissions "viewer").map (fun v => (userT, v))))
  else none

/-- The `cedar.EntityMap` built by `checkAuthorization`, as a lookup
function.  The entities registered are: the organization of the user (when
present), the user, the folder (when `data.FolderID` is non-nil), and the
document; all four keys have pairwise distinct entity types, so insertion
order is immaterial. -/
def storeFn (data : EntityData) (userID documentID : String) : EStore := fun k =>
  if k = (docT, documentID) then some (docAttrsFn data)
  else if k = (userT, userID) then some (userAttrsFn data)
  else
    match data.FolderID with
    | some fid =>
      if k = (folderT, fid) then some (folderAttrsFn data fid)
      else if data.UserOrganization ≠ "" ∧ k = (orgT, data.UserOrganization) then
        some (orgAttrsFn data)
      else none
    | none =>
      if data.UserOrganization ≠ "" ∧ k = (orgT, data.UserOrganization) then
        some (orgAttrsFn data)
      else none

/-- The condition-evaluation results of the policies whose action scope
matches the fixed `ViewDocument` request (Cedar checks the scope before
evaluating the condition). -/
def viewResults (ps : List Policy) (data : EntityData) (userID documentID : String) :
    List (Except String CVal) :=
  ps.filterMap fun p =>
    if p.actions.contains "ViewDocument" then
      some (eval (storeFn data userID documentID) (userT, userID) (docT, documentID) p.cond)
    else none

/-- `checkAuthorization` of `cedar/main.go`: build the entities, authorize the
`ViewDocument` request, fail when the diagnostic contains any error, and
otherwise report whether the decision is `Allow` (some matching permit
condition evaluated to `true`). -/
def checkAuthorization (ps : List Policy) (data : EntityData) (userID documentID : String) :
    Except String Bool :=
  if (viewResults ps data userID documentID).any (fun r =>
      match r with | .ok (.vb _) => false | _ => true) then
    .error "authorization errors"
  else
    .ok ((viewResults ps data userID documentID).any (fun r =>
      match r with | .ok (.vb b) => b | _ => false))

/-- The decision of the Cedar evaluation on the built entities, expressed
directly over the aggregate: one disjunct per `ViewDocument` permit.  Proved
equal to `checkAuthorization` in `checkAuthorization_eq` below. -/
def decisionBool (data : EntityData) (u : String) : Bool :=
  decide (data.UserOrganization ≠ "" ∧ data.DocumentOrg ≠ "" ∧
          data.UserOrganization = data.DocumentOrg) ||
  (decide (some u = data.DocumentOwner) ||
  (decide (u ∈ data.DocumentPermissions "viewer") ||
  (decide (data.FolderID ≠ none ∧ u ∈ data.FolderPermissions "editor") ||
  (decide (data.FolderID ≠ none ∧ some u = data.FolderOwner) ||
  decide (data.FolderID ≠ none ∧ u ∈ data.FolderPermissions "viewer")))))

/-! ## Relational schema (`cedar/schema.sql`) -/

/-- A row of `documents` (`id` primary key, `organization_id` not null,
`owner_id` and `folder_id` nullable). -/
structure Document where
  id : String
  name : String := ""
  organization_id : String
  owner_id : Option String := none
  folder_id : Option String := none
deriving DecidableEq, Repr

/-- A row of `folders` (`id` primary key, `organization_id` not null,
`owner_id` nullable). -/
structure Folder where
  id : String
  name : String := ""
  organization_id : String
  owner_id : Option String := none
deriving DecidableEq, Repr

/-- A row of `document_permissions` (the surrogate `SERIAL id` is omitted; the
table is `UNIQUE(document_id, user_id, permission_type)`). -/
structure DocPerm where
  document_id : String
  user_id : String
  permission_type : String
deriving DecidableEq, Repr

/-- A row of `folder_permissions` (surrogate `SERIAL id` omitted; the table is
`UNIQUE(folder_id, user_id, permission_type)`). -/
structure FolderPerm where
  folder_id : String
  user_id : String
  permission_type : String
deriving DecidableEq, Repr

/-- The seven tables of `cedar/schema.sql`.  `organizations` is (id, name),
`organization_members` is (user_id, organization_id). -/
structure DB where
  organizations : List (String × String) := []
  users : List String := []
  folders : List Folder := []
  documents : List Document := []
  organization_members : List (String × String) := []
  document_permissions : List DocPerm := []
  folder_permissions : List FolderPerm := []
deriving DecidableEq, Repr

/-- The schema constraints relevant to the verified properties: primary keys
of `documents` and `folders`, the composite primary key of
`organization_members`, the `UNIQUE` triples of the two permission tables, and
their CHECK constraints restricting permission kinds to viewer and editor. -/
def DB.wf (db : DB) : Prop :=
  (db.documents.map (fun x => x.id)).Nodup ∧
  (db.folders.map (fun x => x.id)).Nodup ∧
  db.organization_members.Nodup ∧
  db.document_permissions.Nodup ∧
  db.folder_permissions.Nodup ∧
  (∀ p ∈ db.document_permissions,
    p.permission_type = "viewer" ∨ p.permission_type = "editor") ∧
  (∀ p ∈ db.folder_permissions,
    p.permission_type = "viewer" ∨ p.permission_type = "editor")

instance (db : DB) : Decidable db.wf := by unfold DB.wf; infer_instance

/-! ## The SQL projection of `queryEntityData` (`cedar/main.go`, lines 37–81)

The query is

```
WITH user_org  AS (... WHERE user_id = $1 LIMIT 1),
     doc_info  AS (documents LEFT JOIN folders ... WHERE d.id = $2),
     doc_perms AS (... WHERE dp.document_id = $2),
     folder_perms AS (folder_permissions JOIN doc_info ON fp.folder_id = di.folder_id
                      WHERE di.folder_id IS NOT NULL)
SELECT ... FROM user_org uo CROSS JOIN doc_info di
LEFT JOIN (doc_perms UNION ALL folder_perms) dp ON true
```

modelled CTE by CTE below.  SQL result order is not guaranteed; the model
fixes the natural nested-loop order, and order-independence of the fold is
proved separately. -/

/-- A `doc_info` row: the document joined (LEFT) with its folder. -/
structure DocInfo where
  doc : Document
  folder : Option Folder
deriving DecidableEq, Repr

/-- One row of the outer `SELECT`.  The first seven columns are scanned into
`sql.NullString` (hence `Option String`); the three permission columns are
`COALESCE`d to the empty string (hence plain `String`). -/
structure Row where
  userOrg : Option String
  docID : Option String
  docOrg : Option String
  folderID : Option String
  docOwner : Option String
  folderOrg : Option String
  folderOwner : Option String
  permUserID : String
  permType : String
  resourceType : String
deriving DecidableEq, Repr

/-- One row of `doc_perms` / `folder_perms` after the `UNION ALL`. -/
structure PermRow where
  user_id : String
  permission_type : String
  resource_type : String
deriving DecidableEq, Repr

/-- The `user_org` CTE: organization ids of the membership rows of the user,
`LIMIT 1`. -/
def userOrgRows (db : DB) (userID : String) : List String :=
  ((db.organization_members.filter (fun m => decide (m.1 = userID))).take 1).map
    (fun m => m.2)

/-- The `doc_info` CTE: `documents` filtered on `d.id = $2`, LEFT JOINed with
`folders` on `d.folder_id = f.id` (a SQL `NULL = x` comparison is not true, so
a document without a folder pairs with no folder). -/
def docInfoRows (db : DB) (documentID : String) : List DocInfo :=
  (db.documents.filter (fun doc => decide (doc.id = documentID))).flatMap fun doc =>
    if (db.folders.filter (fun f => decide (doc.folder_id = some f.id))).isEmpty then
      [⟨doc, none⟩]
    else (db.folders.filter (fun f => decide (doc.folder_id = some f.id))).map
      (fun f => ⟨doc, some f⟩)

/-- The `doc_perms` CTE. -/
def docPermRows (db : DB) (documentID : String) : List PermRow :=
  (db.document_permissions.filter (fun p => decide (p.document_id = documentID))).map
    fun p => ⟨p.user_id, p.permission_type, "document"⟩

/-- The `folder_perms` CTE: `folder_permissions JOIN doc_info ON
fp.folder_id = di.folder_id WHERE di.folder_id IS NOT NULL`. -/
def folderPermRows (db : DB) (documentID : String) : List PermRow :=
  db.folder_permissions.flatMap fun fp =>
    (docInfoRows db documentID).filterMap fun di =>
      if di.doc.folder_id = some fp.folder_id then
        some ⟨fp.user_id, fp.permission_type, "folder"⟩
      else none

/-- Assemble one output row from a `user_org` value, a `doc_info` row and an
optional permission row (`none` models the all-`NULL` permission side of the
outer LEFT JOIN, `COALESCE`d to empty strings). -/
def mkRow (uo : String) (di : DocInfo) (p : Option PermRow) : Row :=
  { userOrg := some uo,
    docID := some di.doc.id,
    docOrg := some di.doc.organization_id,
    folderID := di.doc.folder_id,
    docOwner := di.doc.owner_id,
    folderOrg := di.folder.map (fun f => f.organization_id),
    folderOwner := di.folder.bind (fun f => f.owner_id),
    permUserID := match p with | some pr => pr.user_id | none => "",
    permType := match p with | some pr => pr.permission_type | none => "",
    resourceType := match p with | some pr => pr.resource_type | none => "" }

/-- The full result set: `user_org CROSS JOIN doc_info LEFT JOIN (doc_perms
UNION ALL folder_perms) ON true`. -/
def sqlRows (db : DB) (userID documentID : String) : List Row :=
  let perms := docPermRows db documentID ++ folderPermRows db documentID
  (userOrgRows db userID).flatMap fun uo =>
    (docInfoRows db documentID).flatMap fun di =>
      if perms.isEmpty then [mkRow uo di none]
      else perms.map (fun p => mkRow uo di (some p))

/-! ## The row-scanning loop (`cedar/main.go`, lines 94–133) -/

/-- First block of the `rows.Next()` loop body: set the scalar fields while
`data.DocumentID == ""` (the "first row" guard; note the `*string` fields are
assigned only when the scanned column is valid — there is no reset branch). -/
def scanScalars (data : EntityData) (r : Row) : EntityData :=
  if data.DocumentID = "" then
    { data with
      UserOrganization := r.userOrg.getD "",
      DocumentID := r.docID.getD "",
      DocumentOrg := r.docOrg.getD "",
      FolderID := if r.folderID.isSome then r.folderID else data.FolderID,
      DocumentOwner := if r.docOwner.isSome then r.docOwner else data.DocumentOwner,
      FolderOrg := if r.folderOrg.isSome then r.folderOrg else data.FolderOrg,
      FolderOwner := if r.folderOwner.isSome then r.folderOwner else data.FolderOwner }
  else data

/-- Second block of the loop body: when the `COALESCE`d permission columns
are non-empty, append the user id to the permission map selected by the
resource type, keyed by the permission type. -/
def scanPerms (data : EntityData) (r : Row) : EntityData :=
  if r.permUserID ≠ "" ∧ r.permType ≠ "" then
    if r.resourceType = "document" then
      { data with DocumentPermissions := fun k =>
          if k = r.permType then data.DocumentPermissions r.permType ++ [r.permUserID]
          else data.DocumentPermissions k }
    else if r.resourceType = "folder" then
      { data with FolderPermissions := fun k =>
          if k = r.permType then data.FolderPermissions r.permType ++ [r.permUserID]
          else data.FolderPermissions k }
    else data
  else data

/-- One iteration of the `rows.Next()` loop: the scalar block followed by the
permission block. -/
def scanStep (data : EntityData) (r : Row) : EntityData :=
  scanPerms (scanScalars data r) r

/-- Fold the result rows into the aggregate, starting from the zero-valued
`EntityData` with empty permission maps. -/
def foldRows (rows : List Row) : EntityData :=
  rows.foldl scanStep {}

/-- `queryEntityData` of `cedar/main.go`: run the projection and fold the
rows.  The Go function returns an error only on a storage failure
(`db.Query` / `rows.Scan`), which cannot occur against the in-memory
relations, so the model is total; in particular there is no error path for an
unknown document identifier (zero result rows simply fold to the zero
aggregate). -/
def queryEntityData (db : DB) (userID documentID : String) : EntityData :=
  foldRows (sqlRows db userID documentID)

/-- The end-to-end check performed by `main`: hydrate, then authorize. -/
def cedarCheck (db : DB) (userID documentID : String) : Except String Bool :=
  checkAuthorization policies (queryEntityData db userID documentID) userID documentID

/-- The observable outcome of `main`: the printed line on a successful
decision, or the fatal diagnostic (non-zero exit) when `checkAuthorization`
fails. -/
def mainOutput (db : DB) (userID documentID : String) : String :=
  match cedarCheck db userID documentID with
  | .error e => "error: " ++ e
  | .ok true => "ALLOWED: " ++ userID ++ " can view " ++ documentID
  | .ok false => "DENIED: " ++ userID ++ " cannot view " ++ documentID

/-! ## Fixture data (`cedar/schema.sql`, INSERT statements) -/

def fixtureDB : DB :=
  { organizations := [("org1", "Tech Corp"), ("org2", "Marketing Inc")],
    users := ["alice", "bob", "charlie", "david", "eve"],
    folders :=
      [⟨"folder1", "Engineering Docs", "org1", some "alice"⟩,
       ⟨"folder2", "Marketing Materials", "org2", some "david"⟩],
    documents :=
      [⟨"doc1", "Architecture Guide", "org1", some "alice", some "folder1"⟩,
       ⟨"doc2", "API Documentation", "org1", some "bob", some "folder1"⟩,
       ⟨"doc3", "Marketing Strategy", "org2", some "david", some "folder2"⟩,
       ⟨"doc4", "Public Document", "org1", some "alice", none⟩],
    organization_members :=
      [("alice", "org1"), ("bob", "org1"), ("charlie", "org1"),
       ("david", "org2"), ("eve", "org2")],
    document_permissions :=
      [⟨"doc2", "charlie", "viewer"⟩, ⟨"doc4", "bob", "editor"⟩,
       ⟨"doc4", "charlie", "viewer"⟩],
    folder_permissions :=
      [⟨"folder1", "bob", "viewer"⟩, ⟨"folder2", "eve", "editor"⟩] }

/-! ## Helper definitions used by the theorems -/

/-- The condition evaluation of a single policy against the entities built
from an aggregate, for the `ViewDocument` request. -/
def evalP (data : EntityData) (u d : String) (p : Policy) : Except String CVal :=
  eval (storeFn data u d) (userT, u) (docT, d) p.cond

/-- The user id a single row contributes to the permission map for resource
type `rt` at kind `k` (mirrors the guard and grouping of the scan loop). -/
def rowContrib (rt k : String) (r : Row) : Option String :=
  if (r.permUserID ≠ "" ∧ r.permType ≠ "") ∧ r.resourceType = rt ∧ k = r.permType then
    some r.permUserID
  else none

/-- All user ids a row list contributes for resource type `rt` at kind `k`,
in row order. -/
def permContrib (rt k : String) (rows : List Row) : List String :=
  rows.filterMap (rowContrib rt k)

/-- The direct document grants of kind `k` on document `d`, as stored. -/
def docGrantList (db : DB) (d k : String) : List String :=
  ((db.document_permissions.filter (fun p => decide (p.document_id = d))).filter
    (fun p => decide ((p.user_id ≠ "" ∧ p.permission_type ≠ "") ∧ k = p.permission_type))).map
    (fun p => p.user_id)

/-- The folder grants of kind `k` on the folder referenced by `fo` (the
`folder_id` column of the document), as stored. -/
def folderGrantList (db : DB) (fo : Option String) (k : String) : List String :=
  ((db.folder_permissions.filter (fun fp => decide (fo = some fp.folder_id))).filter
    (fun fp => decide ((fp.user_id ≠ "" ∧ fp.permission_type ≠ "") ∧ k = fp.permission_type))).map
    (fun fp => fp.user_id)

/-- The scalar part of the aggregate determined by a (`user_org`, `doc_info`)
pair, with empty permission maps: the state of `EntityData` after the scan
loop has processed the first-row scalar block. -/
def SData (uo : String) (di : DocInfo) : EntityData :=
  { UserOrganization := uo,
    DocumentID := di.doc.id,
    DocumentOrg := di.doc.organization_id,
    FolderID := di.doc.folder_id,
    DocumentOwner := di.doc.owner_id,
    FolderOrg := di.folder.map (fun f => f.organization_id),
    FolderOwner := di.folder.bind (fun f => f.owner_id) }

/-- Two aggregates with the same scalar fields whose per-kind grant
collections are permutations of each other (i.e. equal as multisets — the
set-semantics reading of the aggregate). -/
def AggEquiv (a b : EntityData) : Prop :=
  a.UserOrganization = b.UserOrganization ∧ a.DocumentID = b.DocumentID ∧
  a.DocumentOrg = b.DocumentOrg ∧ a.FolderID = b.FolderID ∧
  a.DocumentOwner = b.DocumentOwner ∧ a.FolderOrg = b.FolderOrg ∧
  a.FolderOwner = b.FolderOwner ∧
  (∀ k, List.Perm (a.DocumentPermissions k) (b.DocumentPermissions k)) ∧
  (∀ k, List.Perm (a.FolderPermissions k) (b.FolderPermissions k))

/-- Remove the direct grant of kind `k` held by a user on the document from an
aggregate. -/
def removeDocGrant (data : EntityData) (k uid : String) : EntityData :=
  { data with DocumentPermissions := fun kk =>
      if kk = k then (data.DocumentPermissions k).filter (fun x => decide (x ≠ uid))
      else data.DocumentPermissions kk }

/-- Add a direct document grant of kind `k` for user `uid` to an aggregate. -/
def addDocGrant (data : EntityData) (k uid : String) : EntityData :=
  { data with DocumentPermissions := fun kk =>
      if kk = k then data.DocumentPermissions k ++ [uid]
      else data.DocumentPermissions kk }

/-- Add a folder grant of kind `k` for user `uid` to an aggregate. -/
def addFolderGrant (data : EntityData) (k uid : String) : EntityData :=
  { data with FolderPermissions := fun kk =>
      if kk = k then data.FolderPermissions k ++ [uid]
      else data.FolderPermissions kk }

/-- `khigh` is a permission kind equal to or higher than `klow`
(editor > viewer). -/
def kindAtLeast (khigh klow : String) : Prop :=
  (khigh = "editor" ∨ khigh = "viewer") ∧ (klow = "viewer" ∨ klow = khigh)

instance (khigh klow : String) : Decidable (kindAtLeast khigh klow) := by
  unfold kindAtLeast
  infer_instance

/-- Boolean inclusion of action lists. -/
def actionSubset (xs ys : List String) : Bool :=
  xs.all (fun a => ys.contains a)

/-- A database whose single document is owned by a user who has no
organization-membership row. -/
def c3DB : DB :=
  { organizations := [("orgZ", "Z Corp")],
    users := ["uma"],
    documents := [⟨"docZ", "Z Notes", "orgZ", some "uma", none⟩] }

/-- A database whose single document lives in a folder on which a
membership-less user holds a viewer grant (and no direct document grant). -/
def c4DB : DB :=
  { organizations := [("orgZ", "Z Corp")],
    users := ["gus", "oz"],
    folders := [⟨"fZ", "Z Folder", "orgZ", some "oz"⟩],
    documents := [⟨"dZ", "Z Doc", "orgZ", some "oz", some "fZ"⟩],
    folder_permissions := [⟨"fZ", "gus", "viewer"⟩] }

/-- A small aggregate used to witness the grant-monotonicity theorem: bob
holds a viewer grant both directly on the document and on its parent
folder. -/
def c5Data : EntityData :=
  { FolderID := some "folder1",
    DocumentPermissions := fun k => if k = "viewer" then ["bob"] else [],
    FolderPermissions := fun k => if k = "viewer" then ["bob"] else [] }

/-! ## Theorems -/
theorem store_res (data : EntityData) (u d : String) :
    storeFn data u d (docT, d) = some (docAttrsFn data) := by
  simp [storeFn]

theorem store_pr (data : EntityData) (u d : String) :
    storeFn data u d (userT, u) = some (userAttrsFn data) := by
  rcases hF : data.FolderID with _ | fid <;>
    simp [storeFn, userT, docT, hF]

theorem store_folder (data : EntityData) (u d fid : String) (h : data.FolderID = some fid) :
    storeFn data u d (folderT, fid) = some (folderAttrsFn data fid) := by
  simp [storeFn, userT, docT, folderT, h]

theorem evalP_org (data : EntityData) (u d : String) :
    evalP data u d pOrgViewDocument =
      .ok (.vb (decide (data.UserOrganization ≠ "" ∧ data.DocumentOrg ≠ "" ∧
        data.UserOrganization = data.DocumentOrg))) := by
  by_cases h1 : data.UserOrganization = "" <;> by_cases h2 : data.DocumentOrg = "" <;>
    simp [evalP, pOrgViewDocument, eval, store_res, store_pr, userAttrsFn, docAttrsFn,
      h1, h2, orgT]

theorem evalP_owner (data : EntityData) (u d : String) :
    evalP data u d pDocOwner = .ok (.vb (decide (some u = data.DocumentOwner))) := by
  rcases hO : data.DocumentOwner with _ | o <;>
    simp [evalP, pDocOwner, eval, store_res, docAttrsFn, hO, userT]

theorem evalP_viewer (data : EntityData) (u d : String) :
    evalP data u d pDocViewer =
      .ok (.vb (decide (u ∈ data.DocumentPermissions "viewer"))) := by
  by_cases hV : (data.DocumentPermissions "viewer").isEmpty
  · simp [evalP, pDocViewer, eval, store_res, docAttrsFn, hV, List.isEmpty_iff.mp hV]
  · simp [evalP, pDocViewer, eval, store_res, docAttrsFn, hV]

theorem evalP_folderEditorDocs (data : EntityData) (u d : String) :
    evalP data u d pFolderEditorDocs =
      .ok (.vb (decide (data.FolderID ≠ none ∧ u ∈ data.FolderPermissions "editor"))) := by
  rcases hF : data.FolderID with _ | fid
  · simp [evalP, pFolderEditorDocs, eval, store_res, docAttrsFn, hF]
  · by_cases hE : (data.FolderPermissions "editor").isEmpty
    · simp [evalP, pFolderEditorDocs, eval, store_res, docAttrsFn, hF,
        store_folder data u d fid hF, folderAttrsFn, hE, List.isEmpty_iff.mp hE]
    · simp [evalP, pFolderEditorDocs, eval, store_res, docAttrsFn, hF,
        store_folder data u d fid hF, folderAttrsFn, hE]

theorem evalP_folderOwnerDocs (data : EntityData) (u d : String) :
    evalP data u d pFolderOwnerDocs =
      .ok (.vb (decide (data.FolderID ≠ none ∧ some u = data.FolderOwner))) := by
  rcases hF : data.FolderID with _ | fid
  · simp [evalP, pFolderOwnerDocs, eval, store_res, docAttrsFn, hF]
  · rcases hO : data.FolderOwner with _ | o <;>
      simp [evalP, pFolderOwnerDocs, eval, store_res, docAttrsFn, hF,
        store_folder data u d fid hF, folderAttrsFn, hO, userT]

theorem evalP_folderViewerDocs (data : EntityData) (u d : String) :
    evalP data u d pFolderViewerDocs =
      .ok (.vb (decide (data.FolderID ≠ none ∧ u ∈ data.FolderPermissions "viewer"))) := by
  rcases hF : data.FolderID with _ | fid
  · simp [evalP, pFolderViewerDocs, eval, store_res, docAttrsFn, hF]
  · by_cases hV : (data.FolderPermissions "viewer").isEmpty
    · simp [evalP, pFolderViewerDocs, eval, store_res, docAttrsFn, hF,
        store_folder data u d fid hF, folderAttrsFn, hV, List.isEmpty_iff.mp hV]
    · simp [evalP, pFolderViewerDocs, eval, store_res, docAttrsFn, hF,
        store_folder data u d fid hF, folderAttrsFn, hV]

theorem viewResults_policies (data : EntityData) (u d : String) :
    viewResults policies data u d =
      [evalP data u d pOrgViewDocument, evalP data u d pDocOwner,
       evalP data u d pDocViewer, evalP data u d pFolderEditorDocs,
       evalP data u d pFolderOwnerDocs, evalP data u d pFolderViewerDocs] := rfl

theorem checkAuthorization_eq (data : EntityData) (u d : String) :
    checkAuthorization policies data u d = .ok (decisionBool data u) := by
  unfold checkAuthorization
  rw [viewResults_policies, evalP_org, evalP_owner, evalP_viewer,
    evalP_folderEditorDocs, evalP_folderOwnerDocs, evalP_folderViewerDocs]
  simp [decisionBool]

theorem scanScalars_mkRow (a : EntityData) (uo : String) (di : DocInfo) (p : Option PermRow)
    (h1 : a.UserOrganization = uo) (h2 : a.DocumentID = di.doc.id)
    (h3 : a.DocumentOrg = di.doc.organization_id) (h4 : a.FolderID = di.doc.folder_id)
    (h5 : a.DocumentOwner = di.doc.owner_id)
    (h6 : a.FolderOrg = di.folder.map (fun f => f.organization_id))
    (h7 : a.FolderOwner = di.folder.bind (fun f => f.owner_id)) :
    scanScalars a (mkRow uo di p) = a := by
  unfold scanScalars
  split
  · ext <;> simp [mkRow, h1, h2, h3, h4, h5, h6, h7]
  · rfl

theorem opt_ite_isSome {α : Type} (o : Option α) : (if o.isSome then o else none) = o := by
  cases o <;> simp

theorem scanScalars_default (uo : String) (di : DocInfo) (p : Option PermRow) :
    scanScalars {} (mkRow uo di p) = SData uo di := by
  unfold scanScalars
  refine EntityData.ext ?_ ?_ ?_ ?_ ?_ ?_ ?_ ?_ ?_ <;>
    simp [mkRow, SData, opt_ite_isSome]
  intro h
  simp [h]

theorem scanPerms_mkRow (a : EntityData) (uo : String) (di : DocInfo) (p : Option PermRow) :
    scanPerms a (mkRow uo di p) =
      { a with
        DocumentPermissions := fun k =>
          a.DocumentPermissions k ++ (rowContrib "document" k (mkRow uo di p)).toList,
        FolderPermissions := fun k =>
          a.FolderPermissions k ++ (rowContrib "folder" k (mkRow uo di p)).toList } := by
  rcases p with _ | pr
  · have h0 : scanPerms a (mkRow uo di none) = a := by simp [scanPerms, mkRow]
    rw [h0]
    refine EntityData.ext rfl rfl rfl rfl rfl rfl rfl ?_ ?_ <;>
      funext k <;> simp [rowContrib, mkRow]
  · by_cases hu : pr.user_id = ""
    · have h0 : scanPerms a (mkRow uo di (some pr)) = a := by simp [scanPerms, mkRow, hu]
      rw [h0]
      refine EntityData.ext rfl rfl rfl rfl rfl rfl rfl ?_ ?_ <;>
        funext k <;> simp [rowContrib, mkRow, hu]
    · by_cases ht : pr.permission_type = ""
      · have h0 : scanPerms a (mkRow uo di (some pr)) = a := by simp [scanPerms, mkRow, ht]
        rw [h0]
        refine EntityData.ext rfl rfl rfl rfl rfl rfl rfl ?_ ?_ <;>
          funext k <;> simp [rowContrib, mkRow, ht]
      · by_cases hd : pr.resource_type = "document"
        · have h0 : scanPerms a (mkRow uo di (some pr)) =
              { a with DocumentPermissions := fun k =>
                  if k = pr.permission_type then
                    a.DocumentPermissions pr.permission_type ++ [pr.user_id]
                  else a.DocumentPermissions k } := by
            simp [scanPerms, mkRow, hu, ht, hd]
          rw [h0]
          refine EntityData.ext rfl rfl rfl rfl rfl rfl rfl ?_ ?_ <;> funext k
          · by_cases hk : k = pr.permission_type <;>
              simp [rowContrib, mkRow, hu, ht, hd, hk]
          · simp [rowContrib, mkRow, hd]
        · by_cases hf : pr.resource_type = "folder"
          · have h0 : scanPerms a (mkRow uo di (some pr)) =
                { a with FolderPermissions := fun k =>
                    if k = pr.permission_type then
                      a.FolderPermissions pr.permission_type ++ [pr.user_id]
                    else a.FolderPermissions k } := by
              simp [scanPerms, mkRow, hu, ht, hd, hf]
            rw [h0]
            refine EntityData.ext rfl rfl rfl rfl rfl rfl rfl ?_ ?_ <;> funext k
            · simp [rowContrib, mkRow, hf]
            · by_cases hk : k = pr.permission_type <;>
                simp [rowContrib, mkRow, hu, ht, hd, hf, hk]
          · have h0 : scanPerms a (mkRow uo di (some pr)) = a := by
              simp [scanPerms, mkRow, hu, ht, hd, hf]
            rw [h0]
            refine EntityData.ext rfl rfl rfl rfl rfl rfl rfl ?_ ?_ <;>
              funext k <;> simp [rowContrib, mkRow, hu, ht, hd, hf]

theorem foldl_scanStep_const (uo : String) (di : DocInfo) (rows : List Row) :
    ∀ a : EntityData, (∀ r ∈ rows, ∃ p, r = mkRow uo di p) →
      a.UserOrganization = uo → a.DocumentID = di.doc.id →
      a.DocumentOrg = di.doc.organization_id → a.FolderID = di.doc.folder_id →
      a.DocumentOwner = di.doc.owner_id →
      a.FolderOrg = di.folder.map (fun f => f.organization_id) →
      a.FolderOwner = di.folder.bind (fun f => f.owner_id) →
      List.foldl scanStep a rows =
        { a with
          DocumentPermissions := fun k =>
            a.DocumentPermissions k ++ permContrib "document" k rows,
          FolderPermissions := fun k =>
            a.FolderPermissions k ++ permContrib "folder" k rows } := by
  induction rows with
  | nil =>
    intro a _ h1 h2 h3 h4 h5 h6 h7
    refine EntityData.ext rfl rfl rfl rfl rfl rfl rfl ?_ ?_ <;>
      funext k <;> simp [permContrib]
  | cons r rows ih =>
    intro a h h1 h2 h3 h4 h5 h6 h7
    obtain ⟨p, hp⟩ := h r (List.mem_cons_self r rows)
    subst hp
    rw [List.foldl_cons]
    have hstep : scanStep a (mkRow uo di p) =
        { a with
          DocumentPermissions := fun k =>
            a.DocumentPermissions k ++ (rowContrib "document" k (mkRow uo di p)).toList,
          FolderPermissions := fun k =>
            a.FolderPermissions k ++ (rowContrib "folder" k (mkRow uo di p)).toList } := by
      unfold scanStep
      rw [scanScalars_mkRow a uo di p h1 h2 h3 h4 h5 h6 h7, scanPerms_mkRow]
    rw [hstep]
    rw [ih { a with
          DocumentPermissions := fun k =>
            a.DocumentPermissions k ++ (rowContrib "document" k (mkRow uo di p)).toList,
          FolderPermissions := fun k =>
            a.FolderPermissions k ++ (rowContrib "folder" k (mkRow uo di p)).toList }
        (fun r hr => h r (List.mem_cons_of_mem _ hr)) h1 h2 h3 h4 h5 h6 h7]
    refine EntityData.ext rfl rfl rfl rfl rfl rfl rfl ?_ ?_ <;> funext k
    · rcases hc : rowContrib "document" k (mkRow uo di p) with _ | u <;>
        simp [permContrib, List.filterMap_cons, hc, List.append_assoc]
    · rcases hc : rowContrib "folder" k (mkRow uo di p) with _ | u <;>
        simp [permContrib, List.filterMap_cons, hc, List.append_assoc]

theorem foldRows_mkRows (uo : String) (di : DocInfo) (rows : List Row)
    (h : ∀ r ∈ rows, ∃ p, r = mkRow uo di p) (hne : rows ≠ []) :
    foldRows rows =
      { SData uo di with
        DocumentPermissions := fun k => permContrib "document" k rows,
        FolderPermissions := fun k => permContrib "folder" k rows } := by
  rcases rows with _ | ⟨r, rows⟩
  · exact absurd rfl hne
  · obtain ⟨p, hp⟩ := h r (List.mem_cons_self r rows)
    subst hp
    unfold foldRows
    rw [List.foldl_cons]
    have hstep : scanStep {} (mkRow uo di p) =
        { SData uo di with
          DocumentPermissions := fun k => (rowContrib "document" k (mkRow uo di p)).toList,
          FolderPermissions := fun k => (rowContrib "folder" k (mkRow uo di p)).toList } := by
      unfold scanStep
      rw [scanScalars_default, scanPerms_mkRow]
      refine EntityData.ext rfl rfl rfl rfl rfl rfl rfl ?_ ?_ <;> funext k <;> simp [SData]
    rw [hstep]
    rw [foldl_scanStep_const uo di rows
        { SData uo di with
          DocumentPermissions := fun k => (rowContrib "document" k (mkRow uo di p)).toList,
          FolderPermissions := fun k => (rowContrib "folder" k (mkRow uo di p)).toList }
        (fun r hr => h r (List.mem_cons_of_mem _ hr)) rfl rfl rfl rfl rfl rfl rfl]
    refine EntityData.ext rfl rfl rfl rfl rfl rfl rfl ?_ ?_ <;> funext k
    · rcases hc : rowContrib "document" k (mkRow uo di p) with _ | u <;>
        simp [permContrib, List.filterMap_cons, hc]
    · rcases hc : rowContrib "folder" k (mkRow uo di p) with _ | u <;>
        simp [permContrib, List.filterMap_cons, hc]

theorem filterMap_guard {α β : Type} (p : α → Prop) [DecidablePred p] (g : α → β)
    (l : List α) :
    l.filterMap (fun x => if p x then some (g x) else none) =
      (l.filter (fun x => decide (p x))).map g := by
  induction l with
  | nil => simp
  | cons a l ih => by_cases h : p a <;> simp [h, ih]

theorem flatMap_ite_singleton {α β : Type} (p : α → Prop) [DecidablePred p] (g : α → β)
    (l : List α) :
    (l.flatMap fun x => if p x then [g x] else []) =
      (l.filter (fun x => decide (p x))).map g := by
  induction l with
  | nil => simp
  | cons a l ih => by_cases h : p a <;> simp [h, ih]

theorem nodup_map_all_eq {α β : Type} (l : List α) (f : α → β) (c : β)
    (hn : (l.map f).Nodup) (h : ∀ x ∈ l, f x = c) :
    l = [] ∨ ∃ x, l = [x] := by
  rcases l with _ | ⟨x, _ | ⟨y, tl⟩⟩
  · exact Or.inl rfl
  · exact Or.inr ⟨x, rfl⟩
  · exfalso
    have hx := h x (by simp)
    have hy := h y (by simp)
    have : f x ∉ (List.map f (y :: tl)) := (List.nodup_cons.mp hn).1
    exact this (by simp [hx, hy])

theorem userOrg_singleton (db : DB) (u : String) (h : userOrgRows db u ≠ []) :
    ∃ uo, userOrgRows db u = [uo] := by
  unfold userOrgRows at h ⊢
  rcases hfl : db.organization_members.filter (fun m => decide (m.1 = u)) with _ | ⟨m, tl⟩
  · rw [hfl] at h
    simp at h
  · rw [hfl]
    exact ⟨m.2, by simp⟩

theorem docs_filter_small (db : DB) (d : String)
    (hwf : (db.documents.map (fun x => x.id)).Nodup) :
    db.documents.filter (fun x => decide (x.id = d)) = [] ∨
      ∃ doc, db.documents.filter (fun x => decide (x.id = d)) = [doc] := by
  refine nodup_map_all_eq _ (fun x => x.id) d ?_ ?_
  · exact ((db.documents.filter_sublist).map (fun x => x.id)).nodup hwf
  · intro x hx
    simpa using (List.mem_filter.mp hx).2

theorem docInfoRows_eq (db : DB) (d : String) (doc : Document)
    (hwf2 : (db.folders.map (fun x => x.id)).Nodup)
    (hd : db.documents.filter (fun x => decide (x.id = d)) = [doc]) :
    ∃ di : DocInfo, docInfoRows db d = [di] ∧ di.doc = doc := by
  unfold docInfoRows
  rw [hd]
  have hsmall : db.folders.filter (fun f => decide (doc.folder_id = some f.id)) = [] ∨
      ∃ f0, db.folders.filter (fun f => decide (doc.folder_id = some f.id)) = [f0] := by
    rcases hfo : doc.folder_id with _ | fid
    · left
      rw [List.filter_eq_nil_iff]
      intro f _
      simp
    · refine nodup_map_all_eq _ (fun x => x.id) fid ?_ ?_
      · exact ((db.folders.filter_sublist).map (fun x => x.id)).nodup hwf2
      · intro x hx
        have := (List.mem_filter.mp hx).2
        simp [hfo] at this
        exact this.symm
  rcases hsmall with hnil | ⟨f0, hone⟩
  · refine ⟨⟨doc, none⟩, ?_, rfl⟩
    simp only [List.flatMap_cons, List.flatMap_nil, List.append_nil]
    rw [hnil]
    rfl
  · refine ⟨⟨doc, some f0⟩, ?_, rfl⟩
    simp only [List.flatMap_cons, List.flatMap_nil, List.append_nil]
    rw [hone]
    rfl

theorem docPermRows_rt (db : DB) (d : String) :
    ∀ pr ∈ docPermRows db d, pr.resource_type = "document" := by
  intro pr hpr
  simp [docPermRows] at hpr
  obtain ⟨p, -, hp⟩ := hpr
  rw [← hp]

theorem folderPermRows_rt (db : DB) (d : String) :
    ∀ pr ∈ folderPermRows db d, pr.resource_type = "folder" := by
  intro pr hpr
  simp [folderPermRows] at hpr
  obtain ⟨fp, -, di2, -, -, heq⟩ := hpr
  rw [← heq]

theorem filterMap_none_of {α β : Type} (l : List α) (f : α → Option β)
    (h : ∀ a ∈ l, f a = none) : l.filterMap f = [] := by
  induction l with
  | nil => simp
  | cons a l ih =>
    rw [List.filterMap_cons, h a (List.mem_cons_self a l)]
    exact ih (fun a ha => h a (List.mem_cons_of_mem _ ha))

theorem flatMap_filterMap_singleton {α β γ : Type} (l : List α) (x : γ)
    (p : α → γ → Prop) [∀ a c, Decidable (p a c)] (g : α → β) :
    (l.flatMap fun a => [x].filterMap fun c => if p a c then some (g a) else none) =
      (l.filter (fun a => decide (p a x))).map g := by
  induction l with
  | nil => simp
  | cons a l ih => by_cases h : p a x <;> simp [h, ih]

theorem folderPermRows_eq (db : DB) (d : String) (di : DocInfo)
    (hdi : docInfoRows db d = [di]) :
    folderPermRows db d =
      (db.folder_permissions.filter
        (fun fp => decide (di.doc.folder_id = some fp.folder_id))).map
        (fun fp => ⟨fp.user_id, fp.permission_type, "folder"⟩) := by
  unfold folderPermRows
  rw [hdi]
  exact flatMap_filterMap_singleton db.folder_permissions di
    (fun fp di2 => di2.doc.folder_id = some fp.folder_id)
    (fun fp => (⟨fp.user_id, fp.permission_type, "folder"⟩ : PermRow))

theorem permContrib_doc (db : DB) (d k uo : String) (di : DocInfo) :
    permContrib "document" k
        ((docPermRows db d ++ folderPermRows db d).map (fun p => mkRow uo di (some p))) =
      docGrantList db d k := by
  unfold permContrib
  rw [List.filterMap_map, List.filterMap_append]
  have hB : List.filterMap
      ((fun r => rowContrib "document" k r) ∘ (fun p => mkRow uo di (some p)))
      (folderPermRows db d) = [] := by
    apply filterMap_none_of
    intro pr hpr
    have hrt := folderPermRows_rt db d pr hpr
    simp [rowContrib, mkRow, hrt]
  rw [hB, List.append_nil]
  unfold docPermRows
  rw [List.filterMap_map]
  have hfun : ((fun r => rowContrib "document" k r) ∘ (fun p => mkRow uo di (some p))) ∘
      (fun p : DocPerm => (⟨p.user_id, p.permission_type, "document"⟩ : PermRow)) =
      fun p : DocPerm =>
        if (p.user_id ≠ "" ∧ p.permission_type ≠ "") ∧ k = p.permission_type then
          some p.user_id
        else none := by
    funext p
    simp [Function.comp, rowContrib, mkRow]
  rw [hfun]
  exact filterMap_guard _ _ _

theorem permContrib_fol (db : DB) (d k uo : String) (di : DocInfo)
    (hdi : docInfoRows db d = [di]) :
    permContrib "folder" k
        ((docPermRows db d ++ folderPermRows db d).map (fun p => mkRow uo di (some p))) =
      folderGrantList db di.doc.folder_id k := by
  unfold permContrib
  rw [List.filterMap_map, List.filterMap_append]
  have hA : List.filterMap
      ((fun r => rowContrib "folder" k r) ∘ (fun p => mkRow uo di (some p)))
      (docPermRows db d) = [] := by
    apply filterMap_none_of
    intro pr hpr
    have hrt := docPermRows_rt db d pr hpr
    simp [rowContrib, mkRow, hrt]
  rw [hA, List.nil_append]
  rw [folderPermRows_eq db d di hdi, List.filterMap_map]
  have hfun : ((fun r => rowContrib "folder" k r) ∘ (fun p => mkRow uo di (some p))) ∘
      (fun fp : FolderPerm => (⟨fp.user_id, fp.permission_type, "folder"⟩ : PermRow)) =
      fun fp : FolderPerm =>
        if (fp.user_id ≠ "" ∧ fp.permission_type ≠ "") ∧ k = fp.permission_type then
          some fp.user_id
        else none := by
    funext fp
    simp [Function.comp, rowContrib, mkRow]
  rw [hfun]
  unfold folderGrantList
  exact filterMap_guard _ _ _

theorem queryEntityData_char (db : DB) (u d uo : String) (di : DocInfo)
    (huo : userOrgRows db u = [uo]) (hdi : docInfoRows db d = [di]) :
    queryEntityData db u d =
      { SData uo di with
        DocumentPermissions := fun k => docGrantList db d k,
        FolderPermissions := fun k => folderGrantList db di.doc.folder_id k } := by
  unfold queryEntityData sqlRows
  rw [huo, hdi]
  simp only [List.flatMap_cons, List.flatMap_nil, List.append_nil]
  by_cases hp : (docPermRows db d ++ folderPermRows db d).isEmpty
  · rw [if_pos hp]
    have hnil := List.append_eq_nil.mp (List.isEmpty_iff.mp hp)
    have hd1 : db.document_permissions.filter (fun p => decide (p.document_id = d)) = [] := by
      have := hnil.1
      unfold docPermRows at this
      exact List.map_eq_nil_iff.mp this
    have hf1 : db.folder_permissions.filter
        (fun fp => decide (di.doc.folder_id = some fp.folder_id)) = [] := by
      have := hnil.2
      rw [folderPermRows_eq db d di hdi] at this
      exact List.map_eq_nil_iff.mp this
    rw [foldRows_mkRows uo di _ (by
        intro r hr
        rw [List.mem_singleton] at hr
        exact ⟨none, hr⟩) (by simp)]
    refine EntityData.ext rfl rfl rfl rfl rfl rfl rfl ?_ ?_ <;> funext k
    · simp [permContrib, rowContrib, mkRow, docGrantList, hd1]
    · simp [permContrib, rowContrib, mkRow, folderGrantList, hf1]
  · rw [if_neg hp]
    rw [foldRows_mkRows uo di _ (by
        intro r hr
        rw [List.mem_map] at hr
        obtain ⟨p, -, hp2⟩ := hr
        exact ⟨some p, hp2.symm⟩) (by
        intro hcon
        rw [List.map_eq_nil_iff] at hcon
        rw [hcon] at hp
        simp at hp)]
    refine EntityData.ext rfl rfl rfl rfl rfl rfl rfl ?_ ?_ <;> funext k
    · exact permContrib_doc db d k uo di
    · exact permContrib_fol db d k uo di hdi

theorem queryEntityData_noMember (db : DB) (u d : String)
    (h : userOrgRows db u = []) : queryEntityData db u d = {} := by
  unfold queryEntityData sqlRows
  rw [h]
  rfl

theorem queryEntityData_noDoc (db : DB) (u d : String)
    (h : db.documents.filter (fun x => decide (x.id = d)) = []) :
    queryEntityData db u d = {} := by
  unfold queryEntityData sqlRows
  have hdi : docInfoRows db d = [] := by
    unfold docInfoRows
    rw [h]
    rfl
  rw [hdi]
  simp only [List.flatMap_nil]
  have : ((userOrgRows db u).flatMap fun _ => ([] : List Row)) = [] := by
    simp
  rw [this]
  rfl

theorem sqlRows_noMember (db : DB) (u d : String) (h : userOrgRows db u = []) :
    sqlRows db u d = [] := by
  unfold sqlRows
  rw [h]
  rfl

theorem sqlRows_noDoc (db : DB) (u d : String)
    (h : db.documents.filter (fun x => decide (x.id = d)) = []) :
    sqlRows db u d = [] := by
  unfold sqlRows
  have hdi : docInfoRows db d = [] := by
    unfold docInfoRows
    rw [h]
    rfl
  rw [hdi]
  simp

theorem sqlRows_shape (db : DB) (u d uo : String) (di : DocInfo)
    (huo : userOrgRows db u = [uo]) (hdi : docInfoRows db d = [di]) :
    (∀ r ∈ sqlRows db u d, ∃ p, r = mkRow uo di p) ∧ sqlRows db u d ≠ [] := by
  unfold sqlRows
  rw [huo, hdi]
  simp only [List.flatMap_cons, List.flatMap_nil, List.append_nil]
  by_cases hp : (docPermRows db d ++ folderPermRows db d).isEmpty
  · rw [if_pos hp]
    exact ⟨fun r hr => ⟨none, List.mem_singleton.mp hr⟩, by simp⟩
  · rw [if_neg hp]
    refine ⟨fun r hr => ?_, ?_⟩
    · rw [List.mem_map] at hr
      obtain ⟨p, -, hp2⟩ := hr
      exact ⟨some p, hp2.symm⟩
    · intro hcon
      rw [List.map_eq_nil_iff] at hcon
      rw [hcon] at hp
      simp at hp

theorem docGrantList_nodup (db : DB) (d k : String)
    (h : db.document_permissions.Nodup) : (docGrantList db d k).Nodup := by
  unfold docGrantList
  refine ((h.filter _).filter _).map_on ?_
  intro x hx y hy hxy
  have hx1 := List.mem_filter.mp hx
  have hx2 := List.mem_filter.mp hx1.1
  have hy1 := List.mem_filter.mp hy
  have hy2 := List.mem_filter.mp hy1.1
  have hxd : x.document_id = d := of_decide_eq_true hx2.2
  have hyd : y.document_id = d := of_decide_eq_true hy2.2
  have hxk : k = x.permission_type := (of_decide_eq_true hx1.2).2
  have hyk : k = y.permission_type := (of_decide_eq_true hy1.2).2
  rcases x with ⟨xd, xu, xt⟩
  rcases y with ⟨yd, yu, yt⟩
  simp only at hxd hyd hxk hyk hxy
  rw [hxd, hyd, hxy, ← hxk, ← hyk]

theorem folderGrantList_nodup (db : DB) (fo : Option String) (k : String)
    (h : db.folder_permissions.Nodup) : (folderGrantList db fo k).Nodup := by
  unfold folderGrantList
  refine ((h.filter _).filter _).map_on ?_
  intro x hx y hy hxy
  have hx1 := List.mem_filter.mp hx
  have hx2 := List.mem_filter.mp hx1.1
  have hy1 := List.mem_filter.mp hy
  have hy2 := List.mem_filter.mp hy1.1
  have hxd : fo = some x.folder_id := of_decide_eq_true hx2.2
  have hyd : fo = some y.folder_id := of_decide_eq_true hy2.2
  have hff : x.folder_id = y.folder_id := Option.some_inj.mp (hxd.symm.trans hyd)
  have hxk : k = x.permission_type := (of_decide_eq_true hx1.2).2
  have hyk : k = y.permission_type := (of_decide_eq_true hy1.2).2
  rcases x with ⟨xd, xu, xt⟩
  rcases y with ⟨yd, yu, yt⟩
  simp only at hff hxk hyk hxy
  rw [hff, hxy, ← hxk, ← hyk]

theorem aggEquiv_refl (a : EntityData) : AggEquiv a a :=
  ⟨rfl, rfl, rfl, rfl, rfl, rfl, rfl, fun _ => List.Perm.refl _, fun _ => List.Perm.refl _⟩

theorem decisionBool_congr (a b : EntityData) (u : String) (h : AggEquiv a b) :
    decisionBool a u = decisionBool b u := by
  obtain ⟨h1, h2, h3, h4, h5, h6, h7, hDP, hFP⟩ := h
  unfold decisionBool
  rw [h1, h3, h4, h5, h7]
  have m1 : (u ∈ a.DocumentPermissions "viewer") ↔ u ∈ b.DocumentPermissions "viewer" :=
    (hDP "viewer").mem_iff
  have m2 : (u ∈ a.FolderPermissions "editor") ↔ u ∈ b.FolderPermissions "editor" :=
    (hFP "editor").mem_iff
  have m3 : (u ∈ a.FolderPermissions "viewer") ↔ u ∈ b.FolderPermissions "viewer" :=
    (hFP "viewer").mem_iff
  rw [decide_eq_decide.mpr m1,
    decide_eq_decide.mpr (and_congr_right fun _ => m2),
    decide_eq_decide.mpr (and_congr_right fun _ => m3)]

theorem decisionBool_of_folder (data : EntityData) (u kh : String)
    (hf : data.FolderID ≠ none) (hm : u ∈ data.FolderPermissions kh)
    (hk : kh = "editor" ∨ kh = "viewer") : decisionBool data u = true := by
  rcases hk with rfl | rfl <;> simp [decisionBool, hf, hm]

theorem addDocGrant_mem (data : EntityData) (k2 v kk uid : String)
    (h : uid ∈ data.DocumentPermissions kk) :
    uid ∈ (addDocGrant data k2 v).DocumentPermissions kk := by
  unfold addDocGrant
  dsimp only
  by_cases hkk : kk = k2
  · subst hkk
    simp [h]
  · simp [hkk, h]

theorem addFolderGrant_mem (data : EntityData) (k2 v kk uid : String)
    (h : uid ∈ data.FolderPermissions kk) :
    uid ∈ (addFolderGrant data k2 v).FolderPermissions kk := by
  unfold addFolderGrant
  dsimp only
  by_cases hkk : kk = k2
  · subst hkk
    simp [h]
  · simp [hkk, h]

/-- Claim C2, amended: when no stored document matches the requested identifier,
hydration succeeds with the zero aggregate (there is no `NotFound` error
path), and the end-to-end check prints a DENIED decision and exits zero. -/
theorem c2_unknown_document_denied (db : DB) (u d : String)
    (hd : db.documents.filter (fun x => decide (x.id = d)) = []) :
    queryEntityData db u d = {} ∧ cedarCheck db u d = Except.ok false ∧
      mainOutput db u d = "DENIED: " ++ u ++ " cannot view " ++ d := by
  have hq := queryEntityData_noDoc db u d hd
  have hc : cedarCheck db u d = Except.ok false := by
    unfold cedarCheck
    rw [hq, checkAuthorization_eq]
    simp [decisionBool]
  refine ⟨hq, hc, ?_⟩
  unfold mainOutput
  rw [hc]

/-- Claim C3, amended: for every well-formed database, a user holding at least one
organization-membership row who is the recorded owner of the requested
document is ALLOWED by the end-to-end check. -/
theorem c3_owner_allowed (db : DB) (u d : String) (doc : Document)
    (hwf : db.wf) (hm : userOrgRows db u ≠ [])
    (hd : (db.documents.filter (fun x => decide (x.id = d))).head? = some doc)
    (ho : doc.owner_id = some u) :
    cedarCheck db u d = Except.ok true := by
  obtain ⟨uo, huo⟩ := userOrg_singleton db u hm
  have hone : db.documents.filter (fun x => decide (x.id = d)) = [doc] := by
    rcases docs_filter_small db d hwf.1 with hnil | ⟨doc2, h2⟩
    · rw [hnil] at hd
      simp at hd
    · rw [h2] at hd
      simp at hd
      rw [h2, hd]
  obtain ⟨di, hdi, hdd⟩ := docInfoRows_eq db d doc hwf.2.1 hone
  unfold cedarCheck
  rw [queryEntityData_char db u d uo di huo hdi, checkAuthorization_eq]
  have : decisionBool
      { SData uo di with
        DocumentPermissions := fun k => docGrantList db d k,
        FolderPermissions := fun k => folderGrantList db di.doc.folder_id k } u = true := by
    simp [decisionBool, SData, hdd, ho]
  rw [this]

/-- Claim C4, amended: for every well-formed database, a non-empty user identifier
with at least one organization-membership row, holding a viewer or editor
grant on the parent folder of the requested document (and no direct grant on
the document itself), is ALLOWED by the end-to-end check. -/
theorem c4_folder_grant_allowed (db : DB) (u d : String) (doc : Document)
    (fid k : String) (hwf : db.wf) (hu : u ≠ "") (hm : userOrgRows db u ≠ [])
    (hd : (db.documents.filter (fun x => decide (x.id = d))).head? = some doc)
    (hf : doc.folder_id = some fid)
    (hk : k = "viewer" ∨ k = "editor")
    (hg : (⟨fid, u, k⟩ : FolderPerm) ∈ db.folder_permissions)
    (_hnd : ∀ p ∈ db.document_permissions, ¬(p.document_id = d ∧ p.user_id = u)) :
    cedarCheck db u d = Except.ok true := by
  obtain ⟨uo, huo⟩ := userOrg_singleton db u hm
  have hone : db.documents.filter (fun x => decide (x.id = d)) = [doc] := by
    rcases docs_filter_small db d hwf.1 with hnil | ⟨doc2, h2⟩
    · rw [hnil] at hd
      simp at hd
    · rw [h2] at hd
      simp at hd
      rw [h2, hd]
  obtain ⟨di, hdi, hdd⟩ := docInfoRows_eq db d doc hwf.2.1 hone
  have hkne : k ≠ "" := by
    rcases hk with rfl | rfl <;> simp
  have hmem : u ∈ folderGrantList db (some fid) k := by
    unfold folderGrantList
    refine List.mem_map.mpr ⟨⟨fid, u, k⟩, ?_, rfl⟩
    refine List.mem_filter.mpr ⟨List.mem_filter.mpr ⟨hg, ?_⟩, ?_⟩
    · simp
    · simp [hu, hkne]
  unfold cedarCheck
  rw [queryEntityData_char db u d uo di huo hdi, checkAuthorization_eq]
  have hdec : decisionBool
      { SData uo di with
        DocumentPermissions := fun kk => docGrantList db d kk,
        FolderPermissions := fun kk => folderGrantList db di.doc.folder_id kk } u = true := by
    rcases hk with rfl | rfl <;>
      simp [decisionBool, SData, hdd, hf, hmem]
  rw [hdec]

/-- Claim C5: removal of a direct document grant in the presence of a folder grant
of equal or higher kind leaves the decision unchanged, and adding any grant
never turns an ALLOWED decision into DENIED. -/
theorem c5_grant_monotonicity (data : EntityData) (u d k khigh : String) :
    (data.FolderID ≠ none → u ∈ data.FolderPermissions khigh → kindAtLeast khigh k →
      checkAuthorization policies (removeDocGrant data k u) u d =
        checkAuthorization policies data u d) ∧
    (∀ k2 v, checkAuthorization policies data u d = Except.ok true →
      checkAuthorization policies (addDocGrant data k2 v) u d = Except.ok true ∧
      checkAuthorization policies (addFolderGrant data k2 v) u d = Except.ok true) := by
  constructor
  · intro hf hm hka
    have hkh : khigh = "editor" ∨ khigh = "viewer" := by
      rcases hka.1 with h | h
      · exact Or.inl h
      · exact Or.inr h
    rw [checkAuthorization_eq, checkAuthorization_eq]
    rw [decisionBool_of_folder data u khigh hf hm hkh]
    rw [decisionBool_of_folder (removeDocGrant data k u) u khigh hf hm hkh]
  · intro k2 v h
    rw [checkAuthorization_eq] at h
    have hb : decisionBool data u = true := by
      simpa using h
    constructor
    · rw [checkAuthorization_eq]
      have hgoal : decisionBool (addDocGrant data k2 v) u = true := by
        unfold decisionBool at hb ⊢
        simp only [Bool.or_eq_true, decide_eq_true_eq] at hb ⊢
        rcases hb with h1 | h2 | h3 | h4 | h5 | h6
        · exact Or.inl h1
        · exact Or.inr (Or.inl h2)
        · exact Or.inr (Or.inr (Or.inl (addDocGrant_mem data k2 v "viewer" u h3)))
        · exact Or.inr (Or.inr (Or.inr (Or.inl h4)))
        · exact Or.inr (Or.inr (Or.inr (Or.inr (Or.inl h5))))
        · exact Or.inr (Or.inr (Or.inr (Or.inr (Or.inr h6))))
      rw [hgoal]
    · rw [checkAuthorization_eq]
      have hgoal : decisionBool (addFolderGrant data k2 v) u = true := by
        unfold decisionBool at hb ⊢
        simp only [Bool.or_eq_true, decide_eq_true_eq] at hb ⊢
        rcases hb with h1 | h2 | h3 | h4 | h5 | h6
        · exact Or.inl h1
        · exact Or.inr (Or.inl h2)
        · exact Or.inr (Or.inr (Or.inl h3))
        · exact Or.inr (Or.inr (Or.inr (Or.inl
            ⟨h4.1, addFolderGrant_mem data k2 v "editor" u h4.2⟩)))
        · exact Or.inr (Or.inr (Or.inr (Or.inr (Or.inl h5))))
        · exact Or.inr (Or.inr (Or.inr (Or.inr (Or.inr
            ⟨h6.1, addFolderGrant_mem data k2 v "viewer" u h6.2⟩))))
      rw [hgoal]

/-- Claim C6: evaluation over the built entities never fails — the decision is
always a boolean — and each permit whose condition references an absent
optional attribute (or an empty grant set) evaluates to false. -/
theorem c6_absent_attribute_not_match (data : EntityData) (u d : String) :
    checkAuthorization policies data u d = Except.ok (decisionBool data u) ∧
    (data.UserOrganization = "" → evalP data u d pOrgViewDocument = .ok (.vb false)) ∧
    (data.DocumentOrg = "" → evalP data u d pOrgViewDocument = .ok (.vb false)) ∧
    (data.DocumentOwner = none → evalP data u d pDocOwner = .ok (.vb false)) ∧
    (data.DocumentPermissions "viewer" = [] → evalP data u d pDocViewer = .ok (.vb false)) ∧
    (data.FolderID = none →
      evalP data u d pFolderEditorDocs = .ok (.vb false) ∧
      evalP data u d pFolderOwnerDocs = .ok (.vb false) ∧
      evalP data u d pFolderViewerDocs = .ok (.vb false)) ∧
    (data.FolderOwner = none → evalP data u d pFolderOwnerDocs = .ok (.vb false)) ∧
    (data.FolderPermissions "editor" = [] →
      evalP data u d pFolderEditorDocs = .ok (.vb false)) ∧
    (data.FolderPermissions "viewer" = [] →
      evalP data u d pFolderViewerDocs = .ok (.vb false)) := by
  refine ⟨checkAuthorization_eq data u d, ?_, ?_, ?_, ?_, ?_, ?_, ?_, ?_⟩
  · intro h
    rw [evalP_org]
    simp [h]
  · intro h
    rw [evalP_org]
    simp [h]
  · intro h
    rw [evalP_owner]
    simp [h]
  · intro h
    rw [evalP_viewer]
    simp [h]
  · intro h
    refine ⟨?_, ?_, ?_⟩
    · rw [evalP_folderEditorDocs]
      simp [h]
    · rw [evalP_folderOwnerDocs]
      simp [h]
    · rw [evalP_folderViewerDocs]
      simp [h]
  · intro h
    rw [evalP_folderOwnerDocs]
    simp [h]
  · intro h
    rw [evalP_folderEditorDocs]
    simp [h]
  · intro h
    rw [evalP_folderViewerDocs]
    simp [h]

/-- Claim C9: the decision procedure is a deterministic pure function of the policy
set, the aggregate, and the two identifiers. -/
theorem c9_check_deterministic (ps qs : List Policy) (a b : EntityData)
    (u v d e : String) (hps : ps = qs) (hab : a = b) (huv : u = v) (hde : d = e) :
    checkAuthorization ps a u d = checkAuthorization qs b v e := by
  subst hps
  subst hab
  subst huv
  subst hde
  rfl

/-- Claim C10: the `editors` and `viewers` attributes of the document and folder
entities are attached exactly when the corresponding grant list is non-empty,
and an attached set value is never empty. -/
theorem c10_empty_grants_absent (data : EntityData) (fid : String) :
    ((data.DocumentPermissions "editor" = [] → docAttrsFn data "editors" = none) ∧
     (data.DocumentPermissions "editor" ≠ [] → docAttrsFn data "editors" =
        some (.vset ((data.DocumentPermissions "editor").map (fun e => (userT, e))))) ∧
     (∀ l, docAttrsFn data "editors" = some (.vset l) → l ≠ [])) ∧
    ((data.DocumentPermissions "viewer" = [] → docAttrsFn data "viewers" = none) ∧
     (data.DocumentPermissions "viewer" ≠ [] → docAttrsFn data "viewers" =
        some (.vset ((data.DocumentPermissions "viewer").map (fun v => (userT, v))))) ∧
     (∀ l, docAttrsFn data "viewers" = some (.vset l) → l ≠ [])) ∧
    ((data.FolderPermissions "editor" = [] → folderAttrsFn data fid "editors" = none) ∧
     (data.FolderPermissions "editor" ≠ [] → folderAttrsFn data fid "editors" =
        some (.vset ((data.FolderPermissions "editor").map (fun e => (userT, e))))) ∧
     (∀ l, folderAttrsFn data fid "editors" = some (.vset l) → l ≠ [])) ∧
    ((data.FolderPermissions "viewer" = [] → folderAttrsFn data fid "viewers" = none) ∧
     (data.FolderPermissions "viewer" ≠ [] → folderAttrsFn data fid "viewers" =
        some (.vset ((data.FolderPermissions "viewer").map (fun v => (userT, v))))) ∧
     (∀ l, folderAttrsFn data fid "viewers" = some (.vset l) → l ≠ [])) := by
  have hset : ∀ (xs : List String) (l : List (String × String)),
      xs.map (fun e => (userT, e)) = l → xs ≠ [] → l ≠ [] := by
    intro xs l hl hx
    rw [← hl]
    simpa using hx
  refine ⟨⟨?_, ?_, ?_⟩, ⟨?_, ?_, ?_⟩, ⟨?_, ?_, ?_⟩, ⟨?_, ?_, ?_⟩⟩
  · intro h
    simp [docAttrsFn, h]
  · intro h
    simp [docAttrsFn, List.isEmpty_iff, h]
  · intro l hl
    by_cases h : data.DocumentPermissions "editor" = []
    · simp [docAttrsFn, h] at hl
    · simp [docAttrsFn, List.isEmpty_iff, h] at hl
      exact hset _ l hl h
  · intro h
    simp [docAttrsFn, h]
  · intro h
    simp [docAttrsFn, List.isEmpty_iff, h]
  · intro l hl
    by_cases h : data.DocumentPermissions "viewer" = []
    · simp [docAttrsFn, h] at hl
    · simp [docAttrsFn, List.isEmpty_iff, h] at hl
      exact hset _ l hl h
  · intro h
    simp [folderAttrsFn, h]
  · intro h
    simp [folderAttrsFn, List.isEmpty_iff, h]
  · intro l hl
    by_cases h : data.FolderPermissions "editor" = []
    · simp [folderAttrsFn, h] at hl
    · simp [folderAttrsFn, List.isEmpty_iff, h] at hl
      exact hset _ l hl h
  · intro h
    simp [folderAttrsFn, h]
  · intro h
    simp [folderAttrsFn, List.isEmpty_iff, h]
  · intro l hl
    by_cases h : data.FolderPermissions "viewer" = []
    · simp [folderAttrsFn, h] at hl
    · simp [folderAttrsFn, List.isEmpty_iff, h] at hl
      exact hset _ l hl h

/-- Claim C7: under the uniqueness constraints of the schema, the folded per-kind grant
collections contain no duplicate user, and folding any permutation of the
result rows yields an equivalent aggregate (equal scalars, per-kind grant
lists equal up to permutation) with the same authorization outcome. -/
theorem c7_fold_set_semantics (db : DB) (u d : String) (hwf : db.wf) :
    (∀ k, ((queryEntityData db u d).DocumentPermissions k).Nodup ∧
          ((queryEntityData db u d).FolderPermissions k).Nodup) ∧
    (∀ rows : List Row, List.Perm rows (sqlRows db u d) →
      AggEquiv (foldRows rows) (queryEntityData db u d) ∧
      checkAuthorization policies (foldRows rows) u d =
        checkAuthorization policies (queryEntityData db u d) u d) := by
  have hq : queryEntityData db u d = foldRows (sqlRows db u d) := rfl
  have hnilCase : sqlRows db u d = [] →
      (∀ rows : List Row, List.Perm rows (sqlRows db u d) →
        AggEquiv (foldRows rows) (queryEntityData db u d) ∧
        checkAuthorization policies (foldRows rows) u d =
          checkAuthorization policies (queryEntityData db u d) u d) := by
    intro hsql rows hperm
    rw [hsql] at hperm
    rw [hperm.eq_nil, hq, hsql]
    exact ⟨aggEquiv_refl _, rfl⟩
  by_cases huo0 : userOrgRows db u = []
  · constructor
    · intro k
      rw [queryEntityData_noMember db u d huo0]
      simp
    · exact hnilCase (sqlRows_noMember db u d huo0)
  · by_cases hd0 : db.documents.filter (fun x => decide (x.id = d)) = []
    · constructor
      · intro k
        rw [queryEntityData_noDoc db u d hd0]
        simp
      · exact hnilCase (sqlRows_noDoc db u d hd0)
    · obtain ⟨uo, huo⟩ := userOrg_singleton db u huo0
      have hdoc : ∃ doc, db.documents.filter (fun x => decide (x.id = d)) = [doc] := by
        rcases docs_filter_small db d hwf.1 with hnil | hone
        · exact absurd hnil hd0
        · exact hone
      obtain ⟨doc, hone⟩ := hdoc
      obtain ⟨di, hdi, -⟩ := docInfoRows_eq db d doc hwf.2.1 hone
      obtain ⟨hshape, hne⟩ := sqlRows_shape db u d uo di huo hdi
      constructor
      · intro k
        rw [queryEntityData_char db u d uo di huo hdi]
        exact ⟨docGrantList_nodup db d k hwf.2.2.2.1,
               folderGrantList_nodup db di.doc.folder_id k hwf.2.2.2.2.1⟩
      · intro rows hperm
        have hshape2 : ∀ r ∈ rows, ∃ p, r = mkRow uo di p :=
          fun r hr => hshape r (hperm.mem_iff.mp hr)
        have hne2 : rows ≠ [] := by
          intro hcon
          rw [hcon] at hperm
          exact hne (hperm.symm.eq_nil)
        have hAgg : AggEquiv (foldRows rows) (queryEntityData db u d) := by
          rw [hq, foldRows_mkRows uo di rows hshape2 hne2,
            foldRows_mkRows uo di (sqlRows db u d) hshape hne]
          refine ⟨rfl, rfl, rfl, rfl, rfl, rfl, rfl, ?_, ?_⟩
          · intro k
            exact hperm.filterMap (rowContrib "document" k)
          · intro k
            exact hperm.filterMap (rowContrib "folder" k)
        refine ⟨hAgg, ?_⟩
        rw [checkAuthorization_eq, checkAuthorization_eq,
          decisionBool_congr (foldRows rows) (queryEntityData db u d) u hAgg]

/-- Claim C1, behaviour of the code at the failing input — `frank` has no
organization-membership row, `doc1` is stored with owner `alice`, yet the
hydrated aggregate is completely empty (the `CROSS JOIN` with the empty
`user_org` CTE yields zero rows), and the check prints DENIED. -/
theorem c1_missing_membership_empties_aggregate :
    fixtureDB.organization_members.filter (fun m => decide (m.1 = "frank")) = [] ∧
    (∃ doc ∈ fixtureDB.documents, doc.id = "doc1" ∧ doc.owner_id = some "alice") ∧
    queryEntityData fixtureDB "frank" "doc1" = {} ∧
    mainOutput fixtureDB "frank" "doc1" = "DENIED: frank cannot view doc1" := by
  refine ⟨rfl, by decide, rfl, rfl⟩

/-- Claim C2, counterexample: `nosuchdoc` is stored nowhere, yet `queryEntityData`
returns the zero aggregate without any error and the check prints DENIED and
exits zero, contradicting the claimed NotFound hard failure. -/
theorem c2_counterexample_no_notfound :
    fixtureDB.documents.filter (fun x => decide (x.id = "nosuchdoc")) = [] ∧
    queryEntityData fixtureDB "alice" "nosuchdoc" = {} ∧
    cedarCheck fixtureDB "alice" "nosuchdoc" = Except.ok false ∧
    mainOutput fixtureDB "alice" "nosuchdoc" = "DENIED: alice cannot view nosuchdoc" :=
  ⟨rfl, rfl, rfl, rfl⟩

/-- Claim C3, counterexample: `uma` is the recorded owner of `docZ` but has no
organization-membership row, and the end-to-end check DENIES her. -/
theorem c3_counterexample_owner_denied :
    (∃ doc ∈ c3DB.documents, doc.id = "docZ" ∧ doc.owner_id = some "uma") ∧
    c3DB.organization_members = [] ∧
    cedarCheck c3DB "uma" "docZ" = Except.ok false ∧
    mainOutput c3DB "uma" "docZ" = "DENIED: uma cannot view docZ" := by
  refine ⟨by decide, rfl, rfl, rfl⟩

/-- Claim C4, counterexample: `gus` holds a viewer grant on the parent folder of `dZ` and
no direct grant on `dZ`, but has no organization-membership row, and the
end-to-end check DENIES him. -/
theorem c4_counterexample_folder_grant_denied :
    (∃ doc ∈ c4DB.documents, doc.id = "dZ" ∧ doc.folder_id = some "fZ") ∧
    (⟨"fZ", "gus", "viewer"⟩ : FolderPerm) ∈ c4DB.folder_permissions ∧
    c4DB.document_permissions = [] ∧
    c4DB.organization_members = [] ∧
    cedarCheck c4DB "gus" "dZ" = Except.ok false := by
  refine ⟨by decide, by decide, rfl, rfl, rfl⟩

/-- Claim C8, counterexample: the document-viewer permit grants `ViewDocument` but
the document-editor permit does not, so the action set of the editor rule is
not a superset of that of the viewer rule. -/
theorem c8_counterexample_editor_misses_view :
    pDocViewer.actions.contains "ViewDocument" = true ∧
    pDocEditor.actions.contains "ViewDocument" = false ∧
    actionSubset pDocViewer.actions pDocEditor.actions = false :=
  ⟨rfl, rfl, rfl⟩

/-- Claim C8, amended: the action set of the owner permit strictly contains
both that of the editor permit (edit, share) and that of the viewer permit
(view); the editor and
viewer permits are incomparable because the editor permit does not grant
view. -/
theorem c8_action_set_ordering :
    pDocOwner.actions = ["ViewDocument", "EditDocument", "DeleteDocument", "ShareDocument"] ∧
    pDocEditor.actions = ["EditDocument", "ShareDocument"] ∧
    pDocViewer.actions = ["ViewDocument"] ∧
    actionSubset pDocEditor.actions pDocOwner.actions = true ∧
    actionSubset pDocOwner.actions pDocEditor.actions = false ∧
    actionSubset pDocViewer.actions pDocOwner.actions = true ∧
    actionSubset pDocOwner.actions pDocViewer.actions = false ∧
    actionSubset pDocViewer.actions pDocEditor.actions = false :=
  ⟨rfl, rfl, rfl, rfl, rfl, rfl, rfl, rfl⟩

/-- Witness for the amended C2 theorem at a concrete unknown document. -/
theorem c2_unknown_document_denied_witness :
    fixtureDB.documents.filter (fun x => decide (x.id = "missingdoc")) = [] ∧
    (queryEntityData fixtureDB "alice" "missingdoc" = {} ∧
     cedarCheck fixtureDB "alice" "missingdoc" = Except.ok false ∧
     mainOutput fixtureDB "alice" "missingdoc" =
       "DENIED: " ++ "alice" ++ " cannot view " ++ "missingdoc") :=
  ⟨rfl, c2_unknown_document_denied fixtureDB "alice" "missingdoc" rfl⟩

/-- Witness for the amended C3 theorem: the fixture scenario
check(alice, doc1) is ALLOWED through the owner rule. -/
theorem c3_owner_allowed_witness :
    DB.wf fixtureDB ∧ userOrgRows fixtureDB "alice" ≠ [] ∧
    cedarCheck fixtureDB "alice" "doc1" = Except.ok true :=
  ⟨by decide, by decide,
   c3_owner_allowed fixtureDB "alice" "doc1"
     ⟨"doc1", "Architecture Guide", "org1", some "alice", some "folder1"⟩
     (by decide) (by decide) (by decide) rfl⟩

/-- Witness for the amended C4 theorem: the fixture scenario
check(bob, doc2) is ALLOWED through the inherited folder1 viewer grant. -/
theorem c4_folder_grant_allowed_witness :
    DB.wf fixtureDB ∧
    (⟨"folder1", "bob", "viewer"⟩ : FolderPerm) ∈ fixtureDB.folder_permissions ∧
    cedarCheck fixtureDB "bob" "doc2" = Except.ok true :=
  ⟨by decide, by decide,
   c4_folder_grant_allowed fixtureDB "bob" "doc2"
     ⟨"doc2", "API Documentation", "org1", some "bob", some "folder1"⟩
     "folder1" "viewer" (by decide) (by decide) (by decide) (by decide) rfl
     (Or.inl rfl) (by decide) (by decide)⟩

/-- Witness for the C5 theorem at a concrete aggregate. -/
theorem c5_grant_monotonicity_witness :
    c5Data.FolderID ≠ none ∧ "bob" ∈ c5Data.FolderPermissions "viewer" ∧
    kindAtLeast "viewer" "viewer" ∧
    checkAuthorization policies (removeDocGrant c5Data "viewer" "bob") "bob" "doc1" =
      checkAuthorization policies c5Data "bob" "doc1" ∧
    checkAuthorization policies (addDocGrant c5Data "editor" "eve") "bob" "doc1" =
      Except.ok true :=
  ⟨by decide, by decide, by decide,
   (c5_grant_monotonicity c5Data "bob" "doc1" "viewer" "viewer").1
     (by decide) (by decide) (by decide),
   ((c5_grant_monotonicity c5Data "bob" "doc1" "viewer" "viewer").2 "editor" "eve" rfl).1⟩

/-- Witness for the C6 theorem at the all-absent aggregate. -/
theorem c6_absent_attribute_not_match_witness :
    checkAuthorization policies {} "u0" "d0" = Except.ok (decisionBool {} "u0") ∧
    evalP {} "u0" "d0" pOrgViewDocument = Except.ok (CVal.vb false) ∧
    evalP {} "u0" "d0" pDocOwner = Except.ok (CVal.vb false) :=
  ⟨(c6_absent_attribute_not_match {} "u0" "d0").1,
   (c6_absent_attribute_not_match {} "u0" "d0").2.1 rfl,
   (c6_absent_attribute_not_match {} "u0" "d0").2.2.2.1 rfl⟩

/-- Witness for the C7 theorem on the fixture database. -/
theorem c7_fold_set_semantics_witness :
    DB.wf fixtureDB ∧
    ((∀ k, ((queryEntityData fixtureDB "alice" "doc1").DocumentPermissions k).Nodup ∧
           ((queryEntityData fixtureDB "alice" "doc1").FolderPermissions k).Nodup) ∧
     (∀ rows : List Row, List.Perm rows (sqlRows fixtureDB "alice" "doc1") →
       AggEquiv (foldRows rows) (queryEntityData fixtureDB "alice" "doc1") ∧
       checkAuthorization policies (foldRows rows) "alice" "doc1" =
         checkAuthorization policies (queryEntityData fixtureDB "alice" "doc1")
           "alice" "doc1")) :=
  ⟨by decide, c7_fold_set_semantics fixtureDB "alice" "doc1" (by decide)⟩

/-- Witness for the C9 theorem at concrete equal inputs. -/
theorem c9_check_deterministic_witness :
    checkAuthorization policies {} "alice" "doc1" =
      checkAuthorization policies {} "alice" "doc1" :=
  c9_check_deterministic policies policies {} {} "alice" "alice" "doc1" "doc1"
    rfl rfl rfl rfl

/-- Witness for the C10 theorem at concrete aggregates. -/
theorem c10_empty_grants_absent_witness :
    docAttrsFn {} "editors" = none ∧
    docAttrsFn c5Data "viewers" =
      some (.vset ((c5Data.DocumentPermissions "viewer").map (fun v => (userT, v)))) :=
  ⟨(c10_empty_grants_absent {} "f0").1.1 rfl,
   (c10_empty_grants_absent c5Data "f0").2.1.2.1 (by decide)⟩

end CedarCmp
